import Mathlib

/-!
Shallow embedding of the per-client account ledger of the repository
(src/src/account.rs and src/src/accounts_handler.rs), together with proofs
of the specified properties.  Decimal amounts are modelled as exact
rationals; a negative-sign test on a decimal becomes a comparison with 0.
The deposit history (a HashMap in Rust) is modelled as an association list
whose insert replaces the first matching key in place, or appends.
-/

namespace CodingTest

/-- Client identifier, the u16 newtype ClientId of the crate. -/
abbrev ClientId := Nat

/-- Transaction identifier, the u32 newtype Txid of the crate. -/
abbrev Txid := Nat

/-- Transaction type enum of the crate: deposits and withdrawals carry a
decimal amount; dispute, resolve and chargeback reference a prior
transaction id carried in the enclosing transaction. -/
inductive TransactionType where
  | deposit (amount : Rat)
  | withdrawal (amount : Rat)
  | dispute
  | resolve
  | chargeback
deriving DecidableEq

/-- Transaction struct of the crate: a type tag, a client id and a
transaction id. -/
structure Transaction where
  tx_type : TransactionType
  client_id : ClientId
  txid : Txid
deriving DecidableEq

/-- DepositRecord from account.rs: the deposited amount and whether the
deposit is currently disputed. -/
structure DepositRecord where
  amount : Rat
  disputed : Bool
deriving DecidableEq

/-- Association-list lookup, the model of HashMap::get. -/
def lookupPair {α β : Type} [DecidableEq α] (k : α) : List (α × β) → Option β
  | [] => none
  | (k', v') :: rest => if k' = k then some v' else lookupPair k rest

/-- Association-list insert, the model of HashMap::insert: replace the
first entry with the given key in place, or append a new entry. -/
def insertPair {α β : Type} [DecidableEq α] (k : α) (v : β) :
    List (α × β) → List (α × β)
  | [] => [(k, v)]
  | (k', v') :: rest =>
      if k' = k then (k, v) :: rest else (k', v') :: insertPair k v rest

/-- Account from account.rs: the client id, the deposit history, the
available and held balances and the locked flag. -/
structure Account where
  id : ClientId
  deposits : List (Txid × DepositRecord)
  available : Rat
  held : Rat
  locked : Bool
deriving DecidableEq

/-- Serializable snapshot of a client's account (account.rs). -/
structure AccountSnapshot where
  id : ClientId
  available : Rat
  held : Rat
  total : Rat
  locked : Bool
deriving DecidableEq

namespace Account

/-- Account::new — a fresh account with empty history and zero balances. -/
def new (id : ClientId) : Account :=
  { id := id, deposits := [], available := 0, held := 0, locked := false }

/-- Account::deposit — ignore a negative amount, otherwise record the
deposit (overwriting any record with the same txid) and credit available. -/
def deposit (a : Account) (txid : Txid) (amount : Rat) : Account :=
  if amount < 0 then a
  else
    { a with
      deposits := insertPair txid { amount := amount, disputed := false } a.deposits
      available := a.available + amount }

/-- Account::withdraw — ignore when locked, on a negative amount, or when
the new balance would be negative; otherwise commit the new balance. -/
def withdraw (a : Account) (amount : Rat) : Account :=
  if a.locked then a
  else if amount < 0 then a
  else if a.available - amount < 0 then a
  else { a with available := a.available - amount }

/-- Account::dispute — only an existing, not yet disputed deposit whose
amount fits in the available balance can be disputed; funds are moved from
available to held. -/
def dispute (a : Account) (txid : Txid) : Account :=
  match lookupPair txid a.deposits with
  | none => a
  | some r =>
      if r.disputed = false ∧ a.available ≥ r.amount then
        { a with
          deposits := insertPair txid { amount := r.amount, disputed := true } a.deposits
          available := a.available - r.amount
          held := a.held + r.amount }
      else a

/-- Account::resolve — only a currently disputed deposit can be resolved;
funds are moved back from held to available. -/
def resolve (a : Account) (txid : Txid) : Account :=
  match lookupPair txid a.deposits with
  | none => a
  | some r =>
      if r.disputed then
        { a with
          deposits := insertPair txid { amount := r.amount, disputed := false } a.deposits
          available := a.available + r.amount
          held := a.held - r.amount }
      else a

/-- Account::chargeback — only a currently disputed deposit can be charged
back; the held funds are forfeited and the account is locked. -/
def chargeback (a : Account) (txid : Txid) : Account :=
  match lookupPair txid a.deposits with
  | none => a
  | some r =>
      if r.disputed then
        { a with
          deposits := insertPair txid { amount := r.amount, disputed := false } a.deposits
          held := a.held - r.amount
          locked := true }
      else a

/-- Account::process — reject a transaction whose client id does not match,
otherwise route by transaction type. -/
def process (a : Account) (tx : Transaction) : Account :=
  if tx.client_id ≠ a.id then a
  else
    match tx.tx_type with
    | .deposit amount => a.deposit tx.txid amount
    | .withdrawal amount => a.withdraw amount
    | .dispute => a.dispute tx.txid
    | .resolve => a.resolve tx.txid
    | .chargeback => a.chargeback tx.txid

/-- Account::snapshot — the reported view; total is derived, not stored. -/
def snapshot (a : Account) : AccountSnapshot :=
  { id := a.id, available := a.available, held := a.held,
    total := a.available + a.held, locked := a.locked }

/-- Left fold of Account::process over a list of transactions. -/
def applyAll (a : Account) (txs : List Transaction) : Account :=
  txs.foldl process a

end Account

/-- AccountsHandler from accounts_handler.rs: the accounts map and the set
of transaction ids already seen (modelled as a duplicate-free list). -/
structure AccountsHandler where
  accounts : List (ClientId × Account)
  txids : List Txid
deriving DecidableEq

namespace AccountsHandler

/-- AccountsHandler::new — empty accounts map and empty txid set. -/
def new : AccountsHandler := { accounts := [], txids := [] }

/-- The account the handler uses for a client: the stored one, or a fresh
zero-balance account (the or_insert_with closure). -/
def accountFor (h : AccountsHandler) (c : ClientId) : Account :=
  match lookupPair c h.accounts with
  | some a => a
  | none => Account.new c

/-- AccountsHandler::submit_transaction — fail on a txid seen before across
all clients, leaving the state untouched; otherwise record the txid, fetch
or create the client's account and process the transaction on it.  The
first component is the error message when the submission fails. -/
def submit_transaction (h : AccountsHandler) (tx : Transaction) :
    Option String × AccountsHandler :=
  if tx.txid ∈ h.txids then
    (some ("duplicate txid: " ++ toString tx.txid), h)
  else
    (none,
      { accounts := insertPair tx.client_id ((h.accountFor tx.client_id).process tx) h.accounts
        txids := tx.txid :: h.txids })

/-- AccountsHandler::snapshot_accounts — a snapshot of every account. -/
def snapshot_accounts (h : AccountsHandler) : List AccountSnapshot :=
  h.accounts.map (fun p => p.2.snapshot)

end AccountsHandler

/-- Contribution of one deposit record to the disputed total: its amount
when disputed, 0 otherwise. -/
def DepositRecord.contrib (r : DepositRecord) : Rat :=
  if r.disputed then r.amount else 0

/-- Sum of the amounts of the currently disputed records of a history. -/
def disputedSumList (l : List (Txid × DepositRecord)) : Rat :=
  (l.map (fun p => p.2.contrib)).sum

/-- Sum of the amounts of the currently disputed deposits of an account. -/
def Account.disputedSum (a : Account) : Rat := disputedSumList a.deposits

/-- Every recorded deposit amount is non-negative. -/
def amountsNonneg (l : List (Txid × DepositRecord)) : Prop :=
  ∀ p ∈ l, 0 ≤ p.2.amount

/-- Inductive invariant of an account: the available balance is
non-negative, the held balance dominates the disputed total, and every
recorded amount is non-negative. -/
def Account.inv (a : Account) : Prop :=
  0 ≤ a.available ∧ a.disputedSum ≤ a.held ∧ amountsNonneg a.deposits

/-- Keys of the recorded deposit history of an account. -/
def Account.depositKeys (a : Account) : List Txid := a.deposits.map Prod.fst

/-- Transaction ids of the deposit transactions of an event list. -/
def depositTxids (txs : List Transaction) : List Txid :=
  txs.filterMap (fun tx =>
    match tx.tx_type with
    | TransactionType.deposit _ => some tx.txid
    | _ => none)

/-- The held balance agrees with the sum of the disputed amounts. -/
def Account.heldEq (a : Account) : Prop := a.held = a.disputedSum

/-- Specification of the change in total balance an event causes, taken
from the claim: plus amount for an accepted deposit, minus amount for an
accepted withdrawal, minus the disputed record's amount for an accepted
chargeback, and 0 in every other case. -/
def acceptedDelta (a : Account) (tx : Transaction) : Rat :=
  if tx.client_id ≠ a.id then 0
  else
    match tx.tx_type with
    | TransactionType.deposit amount => if amount < 0 then 0 else amount
    | TransactionType.withdrawal amount =>
        if a.locked then 0
        else if amount < 0 then 0
        else if a.available - amount < 0 then 0
        else -amount
    | TransactionType.dispute => 0
    | TransactionType.resolve => 0
    | TransactionType.chargeback =>
        match lookupPair tx.txid a.deposits with
        | none => 0
        | some r => -r.contrib

/-- Whether the deposit record an id refers to is currently disputed;
false when the id refers to no record. -/
def Account.disputedFlag (a : Account) (txid : Txid) : Bool :=
  match lookupPair txid a.deposits with
  | some r => r.disputed
  | none => false

section MapLemmas

variable {α β : Type} [DecidableEq α]

theorem lookupPair_eq_none_iff {k : α} {l : List (α × β)} :
    lookupPair k l = none ↔ k ∉ l.map Prod.fst := by
  induction l with
  | nil => simp [lookupPair]
  | cons p rest ih =>
    obtain ⟨k', v'⟩ := p
    by_cases h : k' = k
    · subst h; simp [lookupPair]
    · simp [lookupPair, h, ih, Ne.symm h]

theorem insertPair_of_lookup_none {k : α} {v : β} {l : List (α × β)}
    (h : lookupPair k l = none) : insertPair k v l = l ++ [(k, v)] := by
  induction l with
  | nil => simp [insertPair]
  | cons p rest ih =>
    obtain ⟨k', v'⟩ := p
    by_cases hk : k' = k
    · rw [lookupPair, if_pos hk] at h
      exact absurd h (by simp)
    · rw [lookupPair, if_neg hk] at h
      simp [insertPair, hk, ih h]

theorem lookupPair_insertPair_self {k : α} {v : β} {l : List (α × β)} :
    lookupPair k (insertPair k v l) = some v := by
  induction l with
  | nil => simp [insertPair, lookupPair]
  | cons p rest ih =>
    obtain ⟨k', v'⟩ := p
    by_cases hk : k' = k
    · simp [insertPair, hk, lookupPair]
    · simp [insertPair, hk, lookupPair, ih]

theorem lookupPair_insertPair_ne {k k' : α} {v : β} {l : List (α × β)}
    (h : k' ≠ k) : lookupPair k' (insertPair k v l) = lookupPair k' l := by
  induction l with
  | nil => simp [insertPair, lookupPair, Ne.symm h]
  | cons q rest ih =>
    obtain ⟨k₀, v₀⟩ := q
    by_cases hk : k₀ = k
    · subst hk
      simp [insertPair, lookupPair, Ne.symm h]
    · simp [insertPair, hk, lookupPair, ih]

theorem mem_insertPair {k : α} {v : β} {p : α × β} {l : List (α × β)}
    (h : p ∈ insertPair k v l) : p = (k, v) ∨ p ∈ l := by
  induction l with
  | nil => simpa [insertPair] using h
  | cons q rest ih =>
    obtain ⟨k₀, v₀⟩ := q
    by_cases hk : k₀ = k
    · simp [insertPair, hk] at h
      rcases h with h | h
      · left; simp [h]
      · right; simp [h]
    · simp [insertPair, hk] at h
      rcases h with h | h
      · right; simp [h]
      · rcases ih h with h' | h'
        · left; exact h'
        · right; simp [h']

theorem lookupPair_mem {k : α} {r : β} {l : List (α × β)}
    (h : lookupPair k l = some r) : (k, r) ∈ l := by
  induction l with
  | nil => simp [lookupPair] at h
  | cons q rest ih =>
    obtain ⟨k₀, v₀⟩ := q
    by_cases hk : k₀ = k
    · rw [lookupPair, if_pos hk] at h
      injection h with h2
      subst hk; subst h2
      exact List.mem_cons_self _ _
    · rw [lookupPair, if_neg hk] at h
      exact List.mem_cons_of_mem _ (ih h)

theorem map_fst_insertPair_of_some {k : α} {v : β} {l : List (α × β)} {r : β}
    (h : lookupPair k l = some r) :
    (insertPair k v l).map Prod.fst = l.map Prod.fst := by
  induction l with
  | nil => simp [lookupPair] at h
  | cons q rest ih =>
    obtain ⟨k₀, v₀⟩ := q
    by_cases hk : k₀ = k
    · simp [insertPair, hk]
    · rw [lookupPair, if_neg hk] at h
      simp [insertPair, hk, ih h]

end MapLemmas

theorem disputedSumList_cons (q : Txid × DepositRecord)
    (l : List (Txid × DepositRecord)) :
    disputedSumList (q :: l) = q.2.contrib + disputedSumList l := by
  simp [disputedSumList]

theorem disputedSumList_insert_none {k : Txid} {v : DepositRecord}
    {l : List (Txid × DepositRecord)} (h : lookupPair k l = none) :
    disputedSumList (insertPair k v l) = disputedSumList l + v.contrib := by
  rw [insertPair_of_lookup_none h]
  simp [disputedSumList]

theorem disputedSumList_insert_some {k : Txid} {r v : DepositRecord}
    {l : List (Txid × DepositRecord)} (h : lookupPair k l = some r) :
    disputedSumList (insertPair k v l)
      = disputedSumList l - r.contrib + v.contrib := by
  induction l with
  | nil => simp [lookupPair] at h
  | cons q rest ih =>
    obtain ⟨k₀, v₀⟩ := q
    by_cases hk : k₀ = k
    · rw [lookupPair, if_pos hk] at h
      injection h with h2
      subst h2
      simp only [insertPair, if_pos hk]
      rw [disputedSumList_cons, disputedSumList_cons]
      ring
    · rw [lookupPair, if_neg hk] at h
      simp only [insertPair, if_neg hk]
      rw [disputedSumList_cons, disputedSumList_cons, ih h]
      ring

theorem contrib_nonneg {r : DepositRecord} (h : 0 ≤ r.amount) :
    0 ≤ r.contrib := by
  unfold DepositRecord.contrib
  split
  · exact h
  · exact le_refl 0

theorem disputedSumList_nonneg {l : List (Txid × DepositRecord)}
    (h : amountsNonneg l) : 0 ≤ disputedSumList l := by
  apply List.sum_nonneg
  intro x hx
  obtain ⟨p, hp, rfl⟩ := List.mem_map.mp hx
  exact contrib_nonneg (h p hp)

theorem amountsNonneg_insertPair {k : Txid} {v : DepositRecord}
    {l : List (Txid × DepositRecord)} (hl : amountsNonneg l)
    (hv : 0 ≤ v.amount) : amountsNonneg (insertPair k v l) := by
  intro p hp
  rcases mem_insertPair hp with h | h
  · subst h; exact hv
  · exact hl p h

namespace Account

theorem inv_new (id : ClientId) : (Account.new id).inv := by
  refine ⟨le_refl 0, ?_, ?_⟩
  · simp [Account.disputedSum, disputedSumList, Account.new]
  · intro p hp
    simp [Account.new] at hp

theorem inv_deposit {a : Account} {txid : Txid} {amount : Rat} (h : a.inv) :
    (a.deposit txid amount).inv := by
  unfold Account.deposit
  split
  · exact h
  · rename_i hneg
    push_neg at hneg
    obtain ⟨h1, h2, h3⟩ := h
    unfold Account.disputedSum at h2
    refine ⟨?_, ?_, ?_⟩
    · show 0 ≤ a.available + amount
      linarith
    · show disputedSumList (insertPair txid ⟨amount, false⟩ a.deposits) ≤ a.held
      have hcf : DepositRecord.contrib ⟨amount, false⟩ = 0 := by
        simp [DepositRecord.contrib]
      cases hl : lookupPair txid a.deposits with
      | none =>
        rw [disputedSumList_insert_none hl, hcf, add_zero]
        exact h2
      | some r =>
        rw [disputedSumList_insert_some hl, hcf]
        have hr : 0 ≤ r.contrib := contrib_nonneg (h3 _ (lookupPair_mem hl))
        linarith
    · exact amountsNonneg_insertPair h3 hneg

theorem inv_withdraw {a : Account} {amount : Rat} (h : a.inv) :
    (a.withdraw amount).inv := by
  unfold Account.withdraw
  split
  · exact h
  · split
    · exact h
    · split
      · exact h
      · rename_i hnb
        push_neg at hnb
        refine ⟨?_, h.2.1, h.2.2⟩
        show 0 ≤ a.available - amount
        linarith

theorem inv_dispute {a : Account} {txid : Txid} (h : a.inv) :
    (a.dispute txid).inv := by
  unfold Account.dispute
  split
  · exact h
  · rename_i r hl
    split
    · rename_i hc
      obtain ⟨hd, hav⟩ := hc
      obtain ⟨h1, h2, h3⟩ := h
      unfold Account.disputedSum at h2
      have hr0 : 0 ≤ r.amount := h3 _ (lookupPair_mem hl)
      refine ⟨?_, ?_, ?_⟩
      · show 0 ≤ a.available - r.amount
        linarith
      · show disputedSumList (insertPair txid ⟨r.amount, true⟩ a.deposits)
          ≤ a.held + r.amount
        rw [disputedSumList_insert_some hl]
        have hct : DepositRecord.contrib ⟨r.amount, true⟩ = r.amount := by
          simp [DepositRecord.contrib]
        have hcf : r.contrib = 0 := by simp [DepositRecord.contrib, hd]
        rw [hct, hcf]
        linarith
      · exact amountsNonneg_insertPair h3 hr0
    · exact h

theorem inv_resolve {a : Account} {txid : Txid} (h : a.inv) :
    (a.resolve txid).inv := by
  unfold Account.resolve
  split
  · exact h
  · rename_i r hl
    split
    · rename_i hd
      obtain ⟨h1, h2, h3⟩ := h
      unfold Account.disputedSum at h2
      have hr0 : 0 ≤ r.amount := h3 _ (lookupPair_mem hl)
      refine ⟨?_, ?_, ?_⟩
      · show 0 ≤ a.available + r.amount
        linarith
      · show disputedSumList (insertPair txid ⟨r.amount, false⟩ a.deposits)
          ≤ a.held - r.amount
        rw [disputedSumList_insert_some hl]
        have hct : r.contrib = r.amount := by simp [DepositRecord.contrib, hd]
        have hcf : DepositRecord.contrib ⟨r.amount, false⟩ = 0 := by
          simp [DepositRecord.contrib]
        rw [hct, hcf]
        linarith
      · exact amountsNonneg_insertPair h3 hr0
    · exact h

theorem inv_chargeback {a : Account} {txid : Txid} (h : a.inv) :
    (a.chargeback txid).inv := by
  unfold Account.chargeback
  split
  · exact h
  · rename_i r hl
    split
    · rename_i hd
      obtain ⟨h1, h2, h3⟩ := h
      unfold Account.disputedSum at h2
      have hr0 : 0 ≤ r.amount := h3 _ (lookupPair_mem hl)
      refine ⟨h1, ?_, ?_⟩
      · show disputedSumList (insertPair txid ⟨r.amount, false⟩ a.deposits)
          ≤ a.held - r.amount
        rw [disputedSumList_insert_some hl]
        have hct : r.contrib = r.amount := by simp [DepositRecord.contrib, hd]
        have hcf : DepositRecord.contrib ⟨r.amount, false⟩ = 0 := by
          simp [DepositRecord.contrib]
        rw [hct, hcf]
        linarith
      · exact amountsNonneg_insertPair h3 hr0
    · exact h

theorem inv_process {a : Account} {tx : Transaction} (h : a.inv) :
    (a.process tx).inv := by
  obtain ⟨ty, c, i⟩ := tx
  unfold Account.process
  split
  · exact h
  · cases ty with
    | deposit amount => exact inv_deposit h
    | withdrawal amount => exact inv_withdraw h
    | dispute => exact inv_dispute h
    | resolve => exact inv_resolve h
    | chargeback => exact inv_chargeback h

theorem inv_applyAll {a : Account} (h : a.inv) (txs : List Transaction) :
    (a.applyAll txs).inv := by
  induction txs generalizing a with
  | nil => exact h
  | cons tx rest ih => exact ih (inv_process h)

theorem inv_available_held_nonneg {a : Account} (h : a.inv) :
    0 ≤ a.available ∧ 0 ≤ a.held := by
  refine ⟨h.1, ?_⟩
  have := disputedSumList_nonneg h.2.2
  have h2 := h.2.1
  unfold Account.disputedSum at h2
  linarith

end Account

theorem depositTxids_cons (tx : Transaction) (rest : List Transaction) :
    (depositTxids (tx :: rest) = depositTxids rest
        ∧ ∀ amt, tx.tx_type ≠ TransactionType.deposit amt) ∨
      (depositTxids (tx :: rest) = tx.txid :: depositTxids rest
        ∧ ∃ amt, tx.tx_type = TransactionType.deposit amt) := by
  obtain ⟨ty, c, i⟩ := tx
  cases ty with
  | deposit amt =>
    right
    exact ⟨by simp [depositTxids, List.filterMap_cons], amt, rfl⟩
  | withdrawal amt =>
    left
    exact ⟨by simp [depositTxids, List.filterMap_cons], by intro amt h; simp at h⟩
  | dispute =>
    left
    exact ⟨by simp [depositTxids, List.filterMap_cons], by intro amt h; simp at h⟩
  | resolve =>
    left
    exact ⟨by simp [depositTxids, List.filterMap_cons], by intro amt h; simp at h⟩
  | chargeback =>
    left
    exact ⟨by simp [depositTxids, List.filterMap_cons], by intro amt h; simp at h⟩

namespace Account

theorem deposits_withdraw (a : Account) (amount : Rat) :
    (a.withdraw amount).deposits = a.deposits := by
  unfold Account.withdraw
  split
  · rfl
  · split
    · rfl
    · split
      · rfl
      · rfl

theorem keys_withdraw (a : Account) (amount : Rat) :
    (a.withdraw amount).depositKeys = a.depositKeys := by
  unfold Account.depositKeys
  rw [deposits_withdraw]

theorem keys_dispute (a : Account) (txid : Txid) :
    (a.dispute txid).depositKeys = a.depositKeys := by
  unfold Account.depositKeys Account.dispute
  split
  · rfl
  · rename_i r hl
    split
    · exact map_fst_insertPair_of_some hl
    · rfl

theorem keys_resolve (a : Account) (txid : Txid) :
    (a.resolve txid).depositKeys = a.depositKeys := by
  unfold Account.depositKeys Account.resolve
  split
  · rfl
  · rename_i r hl
    split
    · exact map_fst_insertPair_of_some hl
    · rfl

theorem keys_chargeback (a : Account) (txid : Txid) :
    (a.chargeback txid).depositKeys = a.depositKeys := by
  unfold Account.depositKeys Account.chargeback
  split
  · rfl
  · rename_i r hl
    split
    · exact map_fst_insertPair_of_some hl
    · rfl

theorem keys_deposit_subset {a : Account} {txid : Txid} {amount : Rat} :
    ∀ x ∈ (a.deposit txid amount).depositKeys, x ∈ a.depositKeys ∨ x = txid := by
  intro x hx
  unfold Account.deposit Account.depositKeys at hx
  by_cases hneg : amount < 0
  · rw [if_pos hneg] at hx
    exact Or.inl hx
  · rw [if_neg hneg] at hx
    obtain ⟨p, hp, rfl⟩ := List.mem_map.mp hx
    rcases mem_insertPair hp with h | h
    · right; rw [h]
    · left; exact List.mem_map_of_mem _ h

theorem mem_keys_withdraw {a : Account} {amount : Rat} {x : Txid}
    (hx : x ∈ (a.withdraw amount).depositKeys) : x ∈ a.depositKeys := by
  rwa [keys_withdraw] at hx

theorem mem_keys_dispute {a : Account} {txid : Txid} {x : Txid}
    (hx : x ∈ (a.dispute txid).depositKeys) : x ∈ a.depositKeys := by
  rwa [keys_dispute] at hx

theorem mem_keys_resolve {a : Account} {txid : Txid} {x : Txid}
    (hx : x ∈ (a.resolve txid).depositKeys) : x ∈ a.depositKeys := by
  rwa [keys_resolve] at hx

theorem mem_keys_chargeback {a : Account} {txid : Txid} {x : Txid}
    (hx : x ∈ (a.chargeback txid).depositKeys) : x ∈ a.depositKeys := by
  rwa [keys_chargeback] at hx

theorem keys_process_subset {a : Account} {tx : Transaction} :
    ∀ x ∈ (a.process tx).depositKeys, x ∈ a.depositKeys ∨ x = tx.txid := by
  obtain ⟨ty, c, i⟩ := tx
  unfold Account.process
  split
  · intro x hx; exact Or.inl hx
  · cases ty with
    | deposit amount => exact keys_deposit_subset
    | withdrawal amount => exact fun x hx => Or.inl (mem_keys_withdraw hx)
    | dispute => exact fun x hx => Or.inl (mem_keys_dispute hx)
    | resolve => exact fun x hx => Or.inl (mem_keys_resolve hx)
    | chargeback => exact fun x hx => Or.inl (mem_keys_chargeback hx)

theorem keys_process_nondeposit {a : Account} {tx : Transaction}
    (h : ∀ amt, tx.tx_type ≠ TransactionType.deposit amt) :
    (a.process tx).depositKeys = a.depositKeys := by
  obtain ⟨ty, c, i⟩ := tx
  unfold Account.process
  split
  · rfl
  · cases ty with
    | deposit amount => exact absurd rfl (h amount)
    | withdrawal amount => exact keys_withdraw a amount
    | dispute => exact keys_dispute a i
    | resolve => exact keys_resolve a i
    | chargeback => exact keys_chargeback a i

theorem heldEq_deposit {a : Account} {txid : Txid} {amount : Rat}
    (h : a.heldEq) (hl : lookupPair txid a.deposits = none) :
    (a.deposit txid amount).heldEq := by
  unfold Account.deposit
  split
  · exact h
  · show a.held = disputedSumList (insertPair txid ⟨amount, false⟩ a.deposits)
    rw [disputedSumList_insert_none hl]
    have hcf : DepositRecord.contrib ⟨amount, false⟩ = 0 := by
      simp [DepositRecord.contrib]
    rw [hcf, add_zero]
    exact h

theorem heldEq_withdraw {a : Account} {amount : Rat} (h : a.heldEq) :
    (a.withdraw amount).heldEq := by
  unfold Account.withdraw
  split
  · exact h
  · split
    · exact h
    · split
      · exact h
      · exact h

theorem heldEq_dispute {a : Account} {txid : Txid} (h : a.heldEq) :
    (a.dispute txid).heldEq := by
  unfold Account.dispute
  split
  · exact h
  · rename_i r hl
    split
    · rename_i hc
      show a.held + r.amount
        = disputedSumList (insertPair txid ⟨r.amount, true⟩ a.deposits)
      rw [disputedSumList_insert_some hl]
      have hct : DepositRecord.contrib ⟨r.amount, true⟩ = r.amount := by
        simp [DepositRecord.contrib]
      have hcf : r.contrib = 0 := by simp [DepositRecord.contrib, hc.1]
      have hh : a.held = disputedSumList a.deposits := h
      rw [hct, hcf]
      linarith
    · exact h

theorem heldEq_resolve {a : Account} {txid : Txid} (h : a.heldEq) :
    (a.resolve txid).heldEq := by
  unfold Account.resolve
  split
  · exact h
  · rename_i r hl
    split
    · rename_i hd
      show a.held - r.amount
        = disputedSumList (insertPair txid ⟨r.amount, false⟩ a.deposits)
      rw [disputedSumList_insert_some hl]
      have hct : r.contrib = r.amount := by simp [DepositRecord.contrib, hd]
      have hcf : DepositRecord.contrib ⟨r.amount, false⟩ = 0 := by
        simp [DepositRecord.contrib]
      have hh : a.held = disputedSumList a.deposits := h
      rw [hct, hcf]
      linarith
    · exact h

theorem heldEq_chargeback {a : Account} {txid : Txid} (h : a.heldEq) :
    (a.chargeback txid).heldEq := by
  unfold Account.chargeback
  split
  · exact h
  · rename_i r hl
    split
    · rename_i hd
      show a.held - r.amount
        = disputedSumList (insertPair txid ⟨r.amount, false⟩ a.deposits)
      rw [disputedSumList_insert_some hl]
      have hct : r.contrib = r.amount := by simp [DepositRecord.contrib, hd]
      have hcf : DepositRecord.contrib ⟨r.amount, false⟩ = 0 := by
        simp [DepositRecord.contrib]
      have hh : a.held = disputedSumList a.deposits := h
      rw [hct, hcf]
      linarith
    · exact h

theorem heldEq_process {a : Account} {tx : Transaction} (h : a.heldEq)
    (hfresh : ∀ amt, tx.tx_type = TransactionType.deposit amt →
      lookupPair tx.txid a.deposits = none) :
    (a.process tx).heldEq := by
  obtain ⟨ty, c, i⟩ := tx
  unfold Account.process
  split
  · exact h
  · cases ty with
    | deposit amount => exact heldEq_deposit h (hfresh amount rfl)
    | withdrawal amount => exact heldEq_withdraw h
    | dispute => exact heldEq_dispute h
    | resolve => exact heldEq_resolve h
    | chargeback => exact heldEq_chargeback h

theorem heldEq_applyAll {a : Account} (txs : List Transaction) (h : a.heldEq)
    (hnd : (depositTxids txs).Nodup)
    (hks : ∀ k ∈ a.depositKeys, k ∉ depositTxids txs) :
    (a.applyAll txs).heldEq := by
  induction txs generalizing a with
  | nil => exact h
  | cons tx rest ih =>
    show ((a.process tx).applyAll rest).heldEq
    rcases depositTxids_cons tx rest with ⟨heq, hnot⟩ | ⟨heq, amt0, hty0⟩
    · rw [heq] at hnd hks
      apply ih
      · exact heldEq_process h (fun amt hty => absurd hty (hnot amt))
      · exact hnd
      · intro k hk
        rw [keys_process_nondeposit hnot] at hk
        exact hks k hk
    · have hfresh : lookupPair tx.txid a.deposits = none := by
        apply lookupPair_eq_none_iff.mpr
        intro hmem
        exact hks tx.txid hmem (by rw [heq]; exact List.mem_cons_self _ _)
      rw [heq] at hnd hks
      apply ih
      · exact heldEq_process h (fun amt hty => hfresh)
      · exact hnd.of_cons
      · intro k hk
        rcases keys_process_subset k hk with hk' | hk'
        · intro hmem
          exact hks k hk' (List.mem_cons_of_mem _ hmem)
        · subst hk'
          exact (List.nodup_cons.mp hnd).1

theorem locked_deposit {a : Account} {txid : Txid} {amount : Rat}
    (h : a.locked = true) : (a.deposit txid amount).locked = true := by
  unfold Account.deposit
  split
  · exact h
  · exact h

theorem locked_withdraw {a : Account} {amount : Rat}
    (h : a.locked = true) : (a.withdraw amount).locked = true := by
  unfold Account.withdraw
  simp [h]

theorem locked_dispute {a : Account} {txid : Txid}
    (h : a.locked = true) : (a.dispute txid).locked = true := by
  unfold Account.dispute
  split
  · exact h
  · rename_i r hl
    split
    · exact h
    · exact h

theorem locked_resolve {a : Account} {txid : Txid}
    (h : a.locked = true) : (a.resolve txid).locked = true := by
  unfold Account.resolve
  split
  · exact h
  · rename_i r hl
    split
    · exact h
    · exact h

theorem locked_chargeback {a : Account} {txid : Txid}
    (h : a.locked = true) : (a.chargeback txid).locked = true := by
  unfold Account.chargeback
  split
  · exact h
  · rename_i r hl
    split
    · rfl
    · exact h

theorem locked_process {a : Account} {tx : Transaction} (h : a.locked = true) :
    (a.process tx).locked = true := by
  obtain ⟨ty, c, i⟩ := tx
  unfold Account.process
  split
  · exact h
  · cases ty with
    | deposit amount => exact locked_deposit h
    | withdrawal amount => exact locked_withdraw h
    | dispute => exact locked_dispute h
    | resolve => exact locked_resolve h
    | chargeback => exact locked_chargeback h

theorem locked_applyAll {a : Account} (txs : List Transaction)
    (h : a.locked = true) : (a.applyAll txs).locked = true := by
  induction txs generalizing a with
  | nil => exact h
  | cons tx rest ih => exact ih (locked_process h)

theorem withdraw_locked {a : Account} {amount : Rat} (h : a.locked = true) :
    a.withdraw amount = a := by
  unfold Account.withdraw
  simp [h]

end Account

namespace Account

theorem total_deposit (a : Account) (txid : Txid) (amount : Rat) :
    (a.deposit txid amount).available + (a.deposit txid amount).held
      = a.available + a.held + (if amount < 0 then 0 else amount) := by
  unfold Account.deposit
  by_cases h : amount < 0
  · simp only [if_pos h]
    ring
  · simp only [if_neg h]
    show a.available + amount + a.held = a.available + a.held + amount
    ring

theorem total_withdraw (a : Account) (amount : Rat) :
    (a.withdraw amount).available + (a.withdraw amount).held
      = a.available + a.held +
        (if a.locked then 0
         else if amount < 0 then 0
         else if a.available - amount < 0 then 0
         else -amount) := by
  unfold Account.withdraw
  by_cases h1 : a.locked = true
  · simp only [if_pos h1]
    ring
  · simp only [if_neg h1]
    by_cases h2 : amount < 0
    · simp only [if_pos h2]
      ring
    · simp only [if_neg h2]
      by_cases h3 : a.available - amount < 0
      · simp only [if_pos h3]
        ring
      · simp only [if_neg h3]
        show a.available - amount + a.held = a.available + a.held + -amount
        ring

theorem total_dispute (a : Account) (txid : Txid) :
    (a.dispute txid).available + (a.dispute txid).held
      = a.available + a.held + 0 := by
  unfold Account.dispute
  split
  · ring
  · rename_i r hl
    split
    · show a.available - r.amount + (a.held + r.amount) = a.available + a.held + 0
      ring
    · ring

theorem total_resolve (a : Account) (txid : Txid) :
    (a.resolve txid).available + (a.resolve txid).held
      = a.available + a.held + 0 := by
  unfold Account.resolve
  split
  · ring
  · rename_i r hl
    split
    · show a.available + r.amount + (a.held - r.amount) = a.available + a.held + 0
      ring
    · ring

theorem total_chargeback (a : Account) (txid : Txid) :
    (a.chargeback txid).available + (a.chargeback txid).held
      = a.available + a.held +
        (match lookupPair txid a.deposits with
         | none => 0
         | some r => -r.contrib) := by
  unfold Account.chargeback
  split
  · show a.available + a.held = a.available + a.held + 0
    ring
  · rename_i r hl
    split
    · rename_i hd
      show a.available + (a.held - r.amount) = a.available + a.held + -r.contrib
      have hc : r.contrib = r.amount := by simp [DepositRecord.contrib, hd]
      rw [hc]
      ring
    · rename_i hd
      show a.available + a.held = a.available + a.held + -r.contrib
      have hc : r.contrib = 0 := by simp [DepositRecord.contrib, hd]
      rw [hc]
      ring

theorem total_process (a : Account) (tx : Transaction) :
    (a.process tx).available + (a.process tx).held
      = a.available + a.held + acceptedDelta a tx := by
  obtain ⟨ty, c, i⟩ := tx
  unfold Account.process acceptedDelta
  split
  · ring
  · cases ty with
    | deposit amount => exact total_deposit a i amount
    | withdrawal amount => exact total_withdraw a amount
    | dispute => exact total_dispute a i
    | resolve => exact total_resolve a i
    | chargeback => exact total_chargeback a i

end Account

namespace Account

theorem deposit_eq_of_neg {a : Account} {txid : Txid} {amount : Rat}
    (h : amount < 0) : a.deposit txid amount = a := by
  unfold Account.deposit
  rw [if_pos h]

theorem deposit_eq_of_nonneg {a : Account} {txid : Txid} {amount : Rat}
    (h : ¬ amount < 0) :
    a.deposit txid amount
      = { a with
          deposits := insertPair txid ⟨amount, false⟩ a.deposits
          available := a.available + amount } := by
  unfold Account.deposit
  rw [if_neg h]

theorem withdraw_eq_of_neg {a : Account} {amount : Rat} (h : amount < 0) :
    a.withdraw amount = a := by
  unfold Account.withdraw
  by_cases hl : a.locked = true
  · rw [if_pos hl]
  · rw [if_neg hl, if_pos h]

theorem withdraw_eq_of_insufficient {a : Account} {amount : Rat}
    (h : a.available - amount < 0) : a.withdraw amount = a := by
  unfold Account.withdraw
  by_cases hl : a.locked = true
  · rw [if_pos hl]
  · rw [if_neg hl]
    by_cases hn : amount < 0
    · rw [if_pos hn]
    · rw [if_neg hn, if_pos h]

theorem dispute_eq_of_none {a : Account} {txid : Txid}
    (hl : lookupPair txid a.deposits = none) : a.dispute txid = a := by
  unfold Account.dispute
  split
  · rfl
  · rename_i r' hl'
    rw [hl] at hl'
    simp at hl'

theorem dispute_eq_of_disputed {a : Account} {txid : Txid} {r : DepositRecord}
    (hl : lookupPair txid a.deposits = some r) (hd : r.disputed = true) :
    a.dispute txid = a := by
  unfold Account.dispute
  split
  · rfl
  · rename_i r' hl'
    rw [hl] at hl'
    injection hl' with hrr
    subst hrr
    rw [if_neg (by simp [hd])]

theorem dispute_eq_of_insufficient {a : Account} {txid : Txid}
    {r : DepositRecord} (hl : lookupPair txid a.deposits = some r)
    (hav : a.available < r.amount) : a.dispute txid = a := by
  unfold Account.dispute
  split
  · rfl
  · rename_i r' hl'
    rw [hl] at hl'
    injection hl' with hrr
    subst hrr
    rw [if_neg (fun hc => absurd hc.2 (not_le.mpr hav))]

theorem dispute_eq_success {a : Account} {txid : Txid} {r : DepositRecord}
    (hl : lookupPair txid a.deposits = some r) (hd : r.disputed = false)
    (hle : r.amount ≤ a.available) :
    a.dispute txid
      = { a with
          deposits := insertPair txid ⟨r.amount, true⟩ a.deposits
          available := a.available - r.amount
          held := a.held + r.amount } := by
  unfold Account.dispute
  split
  · rename_i hn
    rw [hl] at hn
    simp at hn
  · rename_i r' hl'
    rw [hl] at hl'
    injection hl' with hrr
    subst hrr
    rw [if_pos ⟨hd, hle⟩]

theorem resolve_eq_of_none {a : Account} {txid : Txid}
    (hl : lookupPair txid a.deposits = none) : a.resolve txid = a := by
  unfold Account.resolve
  split
  · rfl
  · rename_i r' hl'
    rw [hl] at hl'
    simp at hl'

theorem resolve_eq_of_undisputed {a : Account} {txid : Txid}
    {r : DepositRecord} (hl : lookupPair txid a.deposits = some r)
    (hd : r.disputed = false) : a.resolve txid = a := by
  unfold Account.resolve
  split
  · rfl
  · rename_i r' hl'
    rw [hl] at hl'
    injection hl' with hrr
    subst hrr
    rw [if_neg (by simp [hd])]

theorem resolve_eq_success {a : Account} {txid : Txid} {r : DepositRecord}
    (hl : lookupPair txid a.deposits = some r) (hd : r.disputed = true) :
    a.resolve txid
      = { a with
          deposits := insertPair txid ⟨r.amount, false⟩ a.deposits
          available := a.available + r.amount
          held := a.held - r.amount } := by
  unfold Account.resolve
  split
  · rename_i hn
    rw [hl] at hn
    simp at hn
  · rename_i r' hl'
    rw [hl] at hl'
    injection hl' with hrr
    subst hrr
    rw [if_pos hd]

theorem chargeback_eq_of_none {a : Account} {txid : Txid}
    (hl : lookupPair txid a.deposits = none) : a.chargeback txid = a := by
  unfold Account.chargeback
  split
  · rfl
  · rename_i r' hl'
    rw [hl] at hl'
    simp at hl'

theorem chargeback_eq_of_undisputed {a : Account} {txid : Txid}
    {r : DepositRecord} (hl : lookupPair txid a.deposits = some r)
    (hd : r.disputed = false) : a.chargeback txid = a := by
  unfold Account.chargeback
  split
  · rfl
  · rename_i r' hl'
    rw [hl] at hl'
    injection hl' with hrr
    subst hrr
    rw [if_neg (by simp [hd])]

theorem chargeback_eq_success {a : Account} {txid : Txid} {r : DepositRecord}
    (hl : lookupPair txid a.deposits = some r) (hd : r.disputed = true) :
    a.chargeback txid
      = { a with
          deposits := insertPair txid ⟨r.amount, false⟩ a.deposits
          held := a.held - r.amount
          locked := true } := by
  unfold Account.chargeback
  split
  · rename_i hn
    rw [hl] at hn
    simp at hn
  · rename_i r' hl'
    rw [hl] at hl'
    injection hl' with hrr
    subst hrr
    rw [if_pos hd]

theorem process_eq_of_mismatch {a : Account} {tx : Transaction}
    (h : tx.client_id ≠ a.id) : a.process tx = a := by
  unfold Account.process
  rw [if_pos h]

end Account

/-- C1: for every sequence of events applied to an account (any mix of the
five operations with arbitrary arguments), after every apply the available
balance and the held balance are non-negative. -/
theorem C1_available_held_nonneg (id : ClientId) (txs : List Transaction) :
    0 ≤ ((Account.new id).applyAll txs).available
      ∧ 0 ≤ ((Account.new id).applyAll txs).held :=
  Account.inv_available_held_nonneg (Account.inv_applyAll (Account.inv_new id) txs)

/-- C2: dispute of an id is a no-op when the id is absent from the deposit
history, when the record is already disputed, or when the available balance
is smaller than the record's amount; otherwise it marks the record disputed,
subtracts the amount from available and adds it to held. -/
theorem C2_dispute_spec (a : Account) (txid : Txid) :
    (lookupPair txid a.deposits = none → a.dispute txid = a)
    ∧ (∀ r, lookupPair txid a.deposits = some r → r.disputed = true →
        a.dispute txid = a)
    ∧ (∀ r, lookupPair txid a.deposits = some r → a.available < r.amount →
        a.dispute txid = a)
    ∧ (∀ r, lookupPair txid a.deposits = some r → r.disputed = false →
        r.amount ≤ a.available →
        lookupPair txid (a.dispute txid).deposits
            = some { amount := r.amount, disputed := true }
        ∧ (a.dispute txid).available = a.available - r.amount
        ∧ (a.dispute txid).held = a.held + r.amount
        ∧ (∀ k, k ≠ txid → lookupPair k (a.dispute txid).deposits
            = lookupPair k a.deposits)
        ∧ (a.dispute txid).locked = a.locked
        ∧ (a.dispute txid).id = a.id) := by
  refine ⟨?_, ?_, ?_, ?_⟩
  · intro hnone
    unfold Account.dispute
    split
    · rfl
    · rename_i r' hl'
      rw [hnone] at hl'
      simp at hl'
  · intro r hr hd
    unfold Account.dispute
    split
    · rfl
    · rename_i r' hl'
      rw [hr] at hl'
      injection hl' with hrr
      subst hrr
      split
      · rename_i hc
        have := hc.1
        rw [hd] at this
        simp at this
      · rfl
  · intro r hr hav
    unfold Account.dispute
    split
    · rfl
    · rename_i r' hl'
      rw [hr] at hl'
      injection hl' with hrr
      subst hrr
      split
      · rename_i hc
        exact absurd hc.2 (not_le.mpr hav)
      · rfl
  · intro r hr hd hle
    unfold Account.dispute
    split
    · rename_i hnone
      rw [hr] at hnone
      simp at hnone
    · rename_i r' hl'
      rw [hr] at hl'
      injection hl' with hrr
      subst hrr
      split
      · refine ⟨lookupPair_insertPair_self, rfl, rfl, ?_, rfl, rfl⟩
        intro k hk
        exact lookupPair_insertPair_ne hk
      · rename_i hc
        exact absurd ⟨hd, hle⟩ hc

/-- Witness for C2 at a concrete account: a single deposit of 5 under id 1,
then a dispute of id 1 takes the success branch. -/
theorem C2_dispute_spec_witness :
    lookupPair 1 (((Account.new 1).deposit 1 5).dispute 1).deposits
        = some { amount := 5, disputed := true }
    ∧ (((Account.new 1).deposit 1 5).dispute 1).available
        = ((Account.new 1).deposit 1 5).available - 5
    ∧ (((Account.new 1).deposit 1 5).dispute 1).held
        = ((Account.new 1).deposit 1 5).held + 5 := by
  have h := (C2_dispute_spec ((Account.new 1).deposit 1 5) 1).2.2.2
    { amount := 5, disputed := false }
    (by norm_num [Account.deposit, Account.new, insertPair, lookupPair])
    rfl
    (by norm_num [Account.deposit, Account.new])
  exact ⟨h.1, h.2.1, h.2.2.1⟩

/-- C3: submit fails exactly when the transaction id was seen before across
all clients; on failure the handler state is unchanged, and on success the
id is recorded as seen and the transaction is processed on exactly the
target client's account, which is created with zero balances if absent. -/
theorem C3_submit_duplicate_iff (st : AccountsHandler) (tx : Transaction) :
    ((st.submit_transaction tx).1.isSome ↔ tx.txid ∈ st.txids)
    ∧ (tx.txid ∈ st.txids → (st.submit_transaction tx).2 = st)
    ∧ (tx.txid ∉ st.txids →
        (st.submit_transaction tx).1 = none
        ∧ tx.txid ∈ (st.submit_transaction tx).2.txids
        ∧ lookupPair tx.client_id (st.submit_transaction tx).2.accounts
            = some ((st.accountFor tx.client_id).process tx)
        ∧ ∀ c, c ≠ tx.client_id →
            lookupPair c (st.submit_transaction tx).2.accounts
              = lookupPair c st.accounts) := by
  by_cases hmem : tx.txid ∈ st.txids
  · unfold AccountsHandler.submit_transaction
    rw [if_pos hmem]
    exact ⟨by simp [hmem], fun _ => rfl, fun hn => absurd hmem hn⟩
  · unfold AccountsHandler.submit_transaction
    rw [if_neg hmem]
    refine ⟨by simp [hmem], fun hm => absurd hm hmem, fun _ => ⟨rfl, ?_, ?_, ?_⟩⟩
    · exact List.mem_cons_self _ _
    · exact lookupPair_insertPair_self
    · intro c hc
      exact lookupPair_insertPair_ne hc

/-- Witness for C3: a fresh submission succeeds, and resubmitting the same
transaction id (even for a different client) leaves the handler unchanged. -/
theorem C3_submit_duplicate_iff_witness :
    ((AccountsHandler.new.submit_transaction ⟨.deposit 5, 1, 1⟩).1 = none)
    ∧ (((AccountsHandler.new.submit_transaction ⟨.deposit 5, 1, 1⟩).2.submit_transaction
          ⟨.deposit 7, 2, 1⟩).2
        = (AccountsHandler.new.submit_transaction ⟨.deposit 5, 1, 1⟩).2) := by
  constructor
  · exact ((C3_submit_duplicate_iff AccountsHandler.new ⟨.deposit 5, 1, 1⟩).2.2
      (by simp [AccountsHandler.new])).1
  · exact (C3_submit_duplicate_iff
      (AccountsHandler.new.submit_transaction ⟨.deposit 5, 1, 1⟩).2
      ⟨.deposit 7, 2, 1⟩).2.1
      (by norm_num [AccountsHandler.submit_transaction, AccountsHandler.new,
        AccountsHandler.accountFor, Account.process, Account.deposit,
        Account.new, lookupPair, insertPair])

/-- C4 fails as stated: deposits (and the dispute life cycle) are not
guarded by the locked flag, so a deposit applied to a locked account still
changes the available balance.  The account below is locked by a chargeback
and has available balance 0; a further deposit moves it to 5. -/
theorem C4_counterexample :
    (((Account.new 1).applyAll
        [⟨.deposit 5, 1, 1⟩, ⟨.dispute, 1, 1⟩, ⟨.chargeback, 1, 1⟩]).locked = true)
    ∧ ((((Account.new 1).applyAll
        [⟨.deposit 5, 1, 1⟩, ⟨.dispute, 1, 1⟩, ⟨.chargeback, 1, 1⟩]).process
          ⟨.deposit 5, 1, 2⟩).available
      ≠ ((Account.new 1).applyAll
        [⟨.deposit 5, 1, 1⟩, ⟨.dispute, 1, 1⟩, ⟨.chargeback, 1, 1⟩]).available) := by
  norm_num [Account.applyAll, Account.process, Account.deposit, Account.withdraw,
    Account.dispute, Account.resolve, Account.chargeback, Account.new,
    lookupPair, insertPair]

/-- C4 amended: on a locked account only withdrawals are guaranteed no-ops;
a withdrawal of any amount leaves a locked account unchanged. -/
theorem C4_locked_withdraw_noop (a : Account) (amount : Rat)
    (h : a.locked = true) : a.withdraw amount = a :=
  Account.withdraw_locked h

/-- Witness for the amended C4 on a concrete locked account. -/
theorem C4_locked_withdraw_noop_witness :
    (((Account.new 1).applyAll
        [⟨.deposit 5, 1, 1⟩, ⟨.dispute, 1, 1⟩, ⟨.chargeback, 1, 1⟩]).locked = true)
    ∧ ((Account.new 1).applyAll
        [⟨.deposit 5, 1, 1⟩, ⟨.dispute, 1, 1⟩, ⟨.chargeback, 1, 1⟩]).withdraw 3
      = (Account.new 1).applyAll
        [⟨.deposit 5, 1, 1⟩, ⟨.dispute, 1, 1⟩, ⟨.chargeback, 1, 1⟩] :=
  ⟨by norm_num [Account.applyAll, Account.process, Account.deposit,
      Account.withdraw, Account.dispute, Account.resolve, Account.chargeback,
      Account.new, lookupPair, insertPair],
   C4_locked_withdraw_noop _ 3
    (by norm_num [Account.applyAll, Account.process, Account.deposit,
      Account.withdraw, Account.dispute, Account.resolve, Account.chargeback,
      Account.new, lookupPair, insertPair])⟩

/-- C5: once locked, an account stays locked after every further sequence
of operations, and a withdrawal on it is a no-op no matter how large the
available balance is. -/
theorem C5_lock_permanent (a : Account) (txs : List Transaction) (amount : Rat)
    (h : a.locked = true) :
    (a.applyAll txs).locked = true
    ∧ (a.applyAll txs).withdraw amount = a.applyAll txs :=
  ⟨Account.locked_applyAll txs h,
   Account.withdraw_locked (Account.locked_applyAll txs h)⟩

/-- Witness for C5: a locked account stays locked across a further deposit
and then ignores a withdrawal. -/
theorem C5_lock_permanent_witness :
    ((((Account.new 1).applyAll
        [⟨.deposit 5, 1, 1⟩, ⟨.dispute, 1, 1⟩, ⟨.chargeback, 1, 1⟩]).applyAll
        [⟨.deposit 7, 1, 9⟩]).locked = true)
    ∧ ((((Account.new 1).applyAll
        [⟨.deposit 5, 1, 1⟩, ⟨.dispute, 1, 1⟩, ⟨.chargeback, 1, 1⟩]).applyAll
        [⟨.deposit 7, 1, 9⟩]).withdraw 100
      = ((Account.new 1).applyAll
        [⟨.deposit 5, 1, 1⟩, ⟨.dispute, 1, 1⟩, ⟨.chargeback, 1, 1⟩]).applyAll
        [⟨.deposit 7, 1, 9⟩]) :=
  C5_lock_permanent _ [⟨.deposit 7, 1, 9⟩] 100
    (by norm_num [Account.applyAll, Account.process, Account.deposit,
      Account.withdraw, Account.dispute, Account.resolve, Account.chargeback,
      Account.new, lookupPair, insertPair])

/-- C6 fails as stated: when the record is already disputed, the dispute is
a no-op but the following resolve closes the pre-existing dispute, so the
balances do not return to their pre-dispute values. -/
theorem C6_counterexample :
    (((((Account.new 1).deposit 1 5).dispute 1).dispute 1).resolve 1).available
      ≠ (((Account.new 1).deposit 1 5).dispute 1).available := by
  norm_num [Account.deposit, Account.dispute, Account.resolve, Account.new,
    lookupPair, insertPair]

/-- C6 amended: when the record the id refers to is not already disputed
(including the cases of an absent id), a dispute immediately followed by a
resolve restores the available and held balances exactly. -/
theorem C6_dispute_resolve_roundtrip (a : Account) (txid : Txid)
    (h : a.disputedFlag txid = false) :
    ((a.dispute txid).resolve txid).available = a.available
    ∧ ((a.dispute txid).resolve txid).held = a.held := by
  unfold Account.disputedFlag at h
  split at h
  · rename_i r hl
    by_cases hle : r.amount ≤ a.available
    · rw [Account.dispute_eq_success hl h hle,
        Account.resolve_eq_success lookupPair_insertPair_self rfl]
      constructor
      · show a.available - r.amount + r.amount = a.available
        ring
      · show a.held + r.amount - r.amount = a.held
        ring
    · rw [Account.dispute_eq_of_insufficient hl (not_le.mp hle),
        Account.resolve_eq_of_undisputed hl h]
      exact ⟨rfl, rfl⟩
  · rename_i hl
    rw [Account.dispute_eq_of_none hl, Account.resolve_eq_of_none hl]
    exact ⟨rfl, rfl⟩

/-- Witness for the amended C6 on a single undisputed deposit. -/
theorem C6_dispute_resolve_roundtrip_witness :
    (((Account.new 1).deposit 1 5).disputedFlag 1 = false)
    ∧ (((((Account.new 1).deposit 1 5).dispute 1).resolve 1).available
        = ((Account.new 1).deposit 1 5).available)
    ∧ (((((Account.new 1).deposit 1 5).dispute 1).resolve 1).held
        = ((Account.new 1).deposit 1 5).held) := by
  have h : ((Account.new 1).deposit 1 5).disputedFlag 1 = false := by
    norm_num [Account.disputedFlag, Account.deposit, Account.new,
      lookupPair, insertPair]
  have h2 := C6_dispute_resolve_roundtrip ((Account.new 1).deposit 1 5) 1 h
  exact ⟨h, h2.1, h2.2⟩

/-- C7: per event, the total balance changes by exactly the accepted
deposit's amount, minus the accepted withdrawal's amount, minus the
disputed record's amount on an accepted chargeback, and 0 otherwise. -/
theorem C7_total_conservation (a : Account) (tx : Transaction) :
    ((a.process tx).snapshot).total = a.snapshot.total + acceptedDelta a tx := by
  show (a.process tx).available + (a.process tx).held
    = a.available + a.held + acceptedDelta a tx
  exact Account.total_process a tx

/-- C8: the five operations are total functions of the account state, and
every invalid or inapplicable event leaves the account unchanged instead of
producing an error: negative deposit, locked or negative or uncovered
withdrawal, dispute of an absent or disputed or uncovered id, resolve or
chargeback of an absent or undisputed id, and a client id mismatch. -/
theorem C8_invalid_events_are_noops (a : Account) (txid : Txid) (amt : Rat)
    (tx : Transaction) :
    (amt < 0 → a.deposit txid amt = a)
    ∧ (a.locked = true → a.withdraw amt = a)
    ∧ (amt < 0 → a.withdraw amt = a)
    ∧ (a.available - amt < 0 → a.withdraw amt = a)
    ∧ (lookupPair txid a.deposits = none →
        a.dispute txid = a ∧ a.resolve txid = a ∧ a.chargeback txid = a)
    ∧ (∀ r, lookupPair txid a.deposits = some r →
        (r.disputed = true → a.dispute txid = a)
        ∧ (a.available < r.amount → a.dispute txid = a)
        ∧ (r.disputed = false → a.resolve txid = a ∧ a.chargeback txid = a))
    ∧ (tx.client_id ≠ a.id → a.process tx = a) := by
  refine ⟨Account.deposit_eq_of_neg, Account.withdraw_locked,
    Account.withdraw_eq_of_neg, Account.withdraw_eq_of_insufficient,
    ?_, ?_, Account.process_eq_of_mismatch⟩
  · intro hl
    exact ⟨Account.dispute_eq_of_none hl, Account.resolve_eq_of_none hl,
      Account.chargeback_eq_of_none hl⟩
  · intro r hr
    exact ⟨fun hd => Account.dispute_eq_of_disputed hr hd,
      fun hav => Account.dispute_eq_of_insufficient hr hav,
      fun hd => ⟨Account.resolve_eq_of_undisputed hr hd,
        Account.chargeback_eq_of_undisputed hr hd⟩⟩

/-- Witness for C8: a negative deposit, an uncovered withdrawal, a dispute
of an unknown id and a mismatched client id are all no-ops on a fresh
account. -/
theorem C8_invalid_events_are_noops_witness :
    (Account.new 1).deposit 1 (-3) = Account.new 1
    ∧ (Account.new 1).withdraw 7 = Account.new 1
    ∧ (Account.new 1).dispute 4 = Account.new 1
    ∧ (Account.new 1).process ⟨.deposit 5, 2, 1⟩ = Account.new 1 := by
  refine ⟨?_, ?_, ?_, ?_⟩
  · exact (C8_invalid_events_are_noops (Account.new 1) 1 (-3)
      ⟨.deposit 5, 2, 1⟩).1 (by norm_num)
  · exact (C8_invalid_events_are_noops (Account.new 1) 1 7
      ⟨.deposit 5, 2, 1⟩).2.2.2.1 (by norm_num [Account.new])
  · exact ((C8_invalid_events_are_noops (Account.new 1) 4 7
      ⟨.deposit 5, 2, 1⟩).2.2.2.2.1 rfl).1
  · exact (C8_invalid_events_are_noops (Account.new 1) 1 7
      ⟨.deposit 5, 2, 1⟩).2.2.2.2.2.2 (by norm_num [Account.new])

/-- C9 fails as stated: a deposit that reuses the id of an existing record
overwrites it, clearing the disputed flag without touching held, so held no
longer equals the sum of the disputed amounts. -/
theorem C9_counterexample :
    ((Account.new 1).applyAll
        [⟨.deposit 5, 1, 1⟩, ⟨.dispute, 1, 1⟩, ⟨.deposit 3, 1, 1⟩]).held
      ≠ ((Account.new 1).applyAll
        [⟨.deposit 5, 1, 1⟩, ⟨.dispute, 1, 1⟩, ⟨.deposit 3, 1, 1⟩]).disputedSum := by
  norm_num [Account.applyAll, Account.process, Account.deposit, Account.withdraw,
    Account.dispute, Account.resolve, Account.chargeback, Account.new,
    lookupPair, insertPair, Account.disputedSum, disputedSumList,
    DepositRecord.contrib]

/-- C9 amended: for every sequence of operations from a new account in
which no two deposits share a transaction id, held equals the sum of the
amounts of the records whose disputed flag is true (so resolve and
chargeback never subtract more from held than is present). -/
theorem C9_held_matches_disputed_sum (id : ClientId) (txs : List Transaction)
    (h : (depositTxids txs).Nodup) :
    ((Account.new id).applyAll txs).held
      = ((Account.new id).applyAll txs).disputedSum := by
  have h0 : (Account.new id).heldEq := by
    show (0 : Rat) = Account.disputedSum (Account.new id)
    simp [Account.disputedSum, disputedSumList, Account.new]
  exact Account.heldEq_applyAll txs h0 h (by
    intro k hk
    simp [Account.new, Account.depositKeys] at hk)

/-- Witness for the amended C9 on a deposit followed by a dispute. -/
theorem C9_held_matches_disputed_sum_witness :
    (depositTxids [⟨.deposit 5, 1, 1⟩, ⟨.dispute, 1, 1⟩]).Nodup
    ∧ ((Account.new 1).applyAll [⟨.deposit 5, 1, 1⟩, ⟨.dispute, 1, 1⟩]).held
        = ((Account.new 1).applyAll
            [⟨.deposit 5, 1, 1⟩, ⟨.dispute, 1, 1⟩]).disputedSum := by
  have hnd : (depositTxids
      [(⟨.deposit 5, 1, 1⟩ : Transaction), ⟨.dispute, 1, 1⟩]).Nodup := by
    simp [depositTxids]
  exact ⟨hnd, C9_held_matches_disputed_sum 1 _ hnd⟩

/-- C10: a chargeback never removes the deposit record, it only clears the
disputed flag; consequently the same deposit id can be disputed and charged
back a second time, subtracting its amount from held again, as the concrete
run shows (held returns to 5 after the second dispute and to 0 after the
second chargeback of the same id). -/
theorem C10_chargeback_keeps_record :
    (∀ (a : Account) (txid : Txid),
        (a.chargeback txid).depositKeys = a.depositKeys
        ∧ ∀ r, lookupPair txid a.deposits = some r →
            lookupPair txid (a.chargeback txid).deposits
              = some { amount := r.amount, disputed := false })
    ∧ ((Account.new 1).applyAll
        [⟨.deposit 5, 1, 1⟩, ⟨.dispute, 1, 1⟩, ⟨.chargeback, 1, 1⟩]).held = 0
    ∧ ((Account.new 1).applyAll
        [⟨.deposit 5, 1, 1⟩, ⟨.dispute, 1, 1⟩, ⟨.chargeback, 1, 1⟩,
          ⟨.deposit 5, 1, 2⟩, ⟨.dispute, 1, 1⟩]).held = 5
    ∧ ((Account.new 1).applyAll
        [⟨.deposit 5, 1, 1⟩, ⟨.dispute, 1, 1⟩, ⟨.chargeback, 1, 1⟩,
          ⟨.deposit 5, 1, 2⟩, ⟨.dispute, 1, 1⟩, ⟨.chargeback, 1, 1⟩]).held = 0 := by
  refine ⟨?_, ?_, ?_, ?_⟩
  · intro a txid
    refine ⟨Account.keys_chargeback a txid, ?_⟩
    intro r hr
    by_cases hd : r.disputed = true
    · rw [Account.chargeback_eq_success hr hd]
      exact lookupPair_insertPair_self
    · have hd' : r.disputed = false := by simpa using hd
      rw [Account.chargeback_eq_of_undisputed hr hd', hr]
      have hre : r = { amount := r.amount, disputed := false } := by
        cases r
        simp_all
      rw [← hre]
  · norm_num [Account.applyAll, Account.process, Account.deposit,
      Account.withdraw, Account.dispute, Account.resolve, Account.chargeback,
      Account.new, lookupPair, insertPair]
  · norm_num [Account.applyAll, Account.process, Account.deposit,
      Account.withdraw, Account.dispute, Account.resolve, Account.chargeback,
      Account.new, lookupPair, insertPair]
  · norm_num [Account.applyAll, Account.process, Account.deposit,
      Account.withdraw, Account.dispute, Account.resolve, Account.chargeback,
      Account.new, lookupPair, insertPair]

/-- Witness for C10: charging back an undisputed record keeps it with its
disputed flag cleared. -/
theorem C10_chargeback_keeps_record_witness :
    lookupPair 1 (((Account.new 1).deposit 1 5).chargeback 1).deposits
      = some { amount := 5, disputed := false } :=
  (C10_chargeback_keeps_record.1 ((Account.new 1).deposit 1 5) 1).2
    { amount := 5, disputed := false }
    (by norm_num [Account.deposit, Account.new, insertPair, lookupPair])

end CodingTest
